import Mathlib

/-!
# Verification of the TMJ number-extraction pipeline (`src/app.py`)

A shallow embedding of the extraction pipeline of the INDIA_TMJ application:
section extractors (Advertisement, Corrigenda, RC, Renewal), the per-page
orchestrator `process_pdf`, and the spreadsheet exporter `generate_excel`.

Text is modelled as `List Char` (a Python `str`); characters and digits are
modelled at ASCII level, which covers all marker strings and tokens the
program manipulates.  The three regular expressions used by the extractors
(`(\d{5,})\s+\d{2}/\d{2}/\d{4}`, `(\d{5,})\s*[-…]`, `\b(\d{5,})\b` and
`Application No\s+(\d{5,})`) are embedded as explicit left-to-right,
non-overlapping scanners; for each of these patterns greedy matching of the
digit run is exact (the character following the digit class can never be a
digit), so maximal-munch scanning coincides with the backtracking regex
semantics.  The scanners carry a fuel argument initialised to the length of
the scanned string: every step of the scan consumes at least one character,
so this fuel is never exhausted before the string is.

Python's `list(set(xs))` and `list(dict.fromkeys(xs))` are both modelled as
first-occurrence deduplication (`dedupFirst`); Python's `set` iteration
order is unspecified, so theorems about these values are stated up to
membership / `toFinset` wherever more than one element is involved.
-/

namespace TMJ

/-- ASCII whitespace, as recognised by Python's `str.strip`, `str.split` and
the regex class `\s`. -/
def pySpace (c : Char) : Bool :=
  c = ' ' || c = '\t' || c = '\n' || c = '\r' || c = '\x0b' || c = '\x0c'

/-- A line of text, as a list of characters. -/
abbrev Line := List Char

/-- Python `str.strip()`: remove leading and trailing whitespace. -/
def pyStrip (l : Line) : Line :=
  ((l.dropWhile pySpace).reverse.dropWhile pySpace).reverse

/-- Test `startsWith hay needle`: does `hay` start with `needle`? -/
def startsWith : List Char → List Char → Bool
  | _, [] => true
  | [], _ :: _ => false
  | h :: hs, n :: ns => h = n && startsWith hs ns

/-- Python's substring test `needle in hay`. -/
def containsSub (hay needle : List Char) : Bool :=
  match hay with
  | [] => needle.isEmpty
  | _ :: t => startsWith hay needle || containsSub t needle

/-- Python `text.split("\n")`: split on newline characters, keeping empty
pieces (`"".split("\n") == [""]`). -/
def splitLines : List Char → List Line
  | [] => [[]]
  | c :: cs =>
    if c = '\n' then [] :: splitLines cs
    else
      match splitLines cs with
      | [] => [[c]]
      | l :: ls => (c :: l) :: ls

/-- Helper for `pySplit`, accumulating the current word in reverse. -/
def pySplitAux (cur : Line) : List Char → List Line
  | [] => if cur.isEmpty then [] else [cur.reverse]
  | c :: cs =>
    if pySpace c then
      if cur.isEmpty then pySplitAux [] cs
      else cur.reverse :: pySplitAux [] cs
    else pySplitAux (c :: cur) cs

/-- Python `str.split()` with no argument: split on whitespace runs,
discarding empty pieces. -/
def pySplit (l : Line) : List Line := pySplitAux [] l

/-- Python `str.isdigit()` at ASCII level: nonempty and all digits. -/
def pyIsdigit (l : Line) : Bool := !l.isEmpty && l.all Char.isDigit

/-- First-occurrence deduplication, with an accumulator of already-seen
elements.  Models both `list(dict.fromkeys(xs))` (whose order this is) and
`list(set(xs))` (whose order Python leaves unspecified). -/
def dedupFirstAux {α : Type} [DecidableEq α] (seen : List α) : List α → List α
  | [] => []
  | a :: l => if a ∈ seen then dedupFirstAux seen l else a :: dedupFirstAux (a :: seen) l

/-- First-occurrence deduplication. -/
def dedupFirst {α : Type} [DecidableEq α] (l : List α) : List α := dedupFirstAux [] l

/-! ## Regex scanners -/

/-- Match the date part `\d{2}/\d{2}/\d{4}` of the Advertisement pattern at
the start of the input, returning the remaining characters. -/
def matchDate : List Char → Option (List Char)
  | d1 :: d2 :: s1 :: d3 :: d4 :: s2 :: y1 :: y2 :: y3 :: y4 :: rest =>
    if d1.isDigit && d2.isDigit && s1 = '/' && d3.isDigit && d4.isDigit && s2 = '/'
        && y1.isDigit && y2.isDigit && y3.isDigit && y4.isDigit then
      some rest
    else none
  | _ => none

/-- Try to match `(\d{5,})\s+\d{2}/\d{2}/\d{4}` at the start of the input,
returning the captured digit run and the characters after the match. -/
def advMatchAt (cs : List Char) : Option (Line × List Char) :=
  let ds := cs.takeWhile Char.isDigit
  let r1 := cs.dropWhile Char.isDigit
  if 5 ≤ ds.length then
    if 1 ≤ (r1.takeWhile pySpace).length then
      (matchDate (r1.dropWhile pySpace)).map fun rest => (ds, rest)
    else none
  else none

/-- Fueled scan of `re.findall(r'(\d{5,})\s+\d{2}/\d{2}/\d{4}', line)`:
left-to-right, non-overlapping; on failure advance one character. -/
def advScanF : Nat → List Char → List Line
  | 0, _ => []
  | _ + 1, [] => []
  | fuel + 1, c :: cs =>
    match advMatchAt (c :: cs) with
    | some (ds, rest) => ds :: advScanF fuel rest
    | none => advScanF fuel cs

/-- All matches of the Advertisement pattern in a line. -/
def advScan (cs : List Char) : List Line := advScanF cs.length cs

/-- The character class `[-…]` of the Corrigenda pattern.  The source file
is double-encoded: the class consists of `-` together with the characters
U+201A, U+00C4, U+00EC and U+00EE (mojibake of an en/em dash). -/
def corrDash (c : Char) : Bool :=
  c = '-' || c = '‚' || c = 'Ä' || c = 'ì' || c = 'î'

/-- Try to match `(\d{5,})\s*[-…]` at the start of the input. -/
def corrMatchAt (cs : List Char) : Option (Line × List Char) :=
  let ds := cs.takeWhile Char.isDigit
  let r1 := cs.dropWhile Char.isDigit
  if 5 ≤ ds.length then
    match r1.dropWhile pySpace with
    | d :: rest => if corrDash d then some (ds, rest) else none
    | [] => none
  else none

/-- Fueled scan of `re.findall(r'(\d{5,})\s*[-…]', line)`. -/
def corrScanF : Nat → List Char → List Line
  | 0, _ => []
  | _ + 1, [] => []
  | fuel + 1, c :: cs =>
    match corrMatchAt (c :: cs) with
    | some (ds, rest) => ds :: corrScanF fuel rest
    | none => corrScanF fuel cs

/-- All matches of the Corrigenda pattern in a line. -/
def corrScan (cs : List Char) : List Line := corrScanF cs.length cs

/-- A regex word character (`\w` at ASCII level). -/
def isWordChar (c : Char) : Bool := c.isAlpha || c.isDigit || c = '_'

/-- Is the first character of the input a word character?  (`false` at the
end of the string, where `\b` holds.) -/
def headWord : List Char → Bool
  | [] => false
  | c :: _ => isWordChar c

/-- Fueled scan of `re.finditer(r'\b(\d{5,})\b', line)`; `prevWord` records
whether the previous character is a word character.  A digit run can only
match when it is preceded and followed by a non-word character (or a string
boundary), so it suffices to consider maximal digit runs. -/
def bareScanF : Nat → Bool → List Char → List Line
  | 0, _, _ => []
  | _ + 1, _, [] => []
  | fuel + 1, prevWord, c :: cs =>
    if !prevWord && c.isDigit then
      let ds := (c :: cs).takeWhile Char.isDigit
      let rest := (c :: cs).dropWhile Char.isDigit
      if 5 ≤ ds.length && !headWord rest then ds :: bareScanF fuel true rest
      else bareScanF fuel true rest
    else bareScanF fuel (isWordChar c) cs

/-- All matches of `\b(\d{5,})\b` in a line. -/
def bareScan (cs : List Char) : List Line := bareScanF cs.length false cs

/-- The literal `Application No` of the second Renewal pattern. -/
def appNoLit : List Char := "Application No".data

/-- Try to match `Application No\s+(\d{5,})` at the start of the input. -/
def appNoMatchAt (cs : List Char) : Option (Line × List Char) :=
  if startsWith cs appNoLit then
    let r1 := cs.drop appNoLit.length
    if 1 ≤ (r1.takeWhile pySpace).length then
      let r2 := r1.dropWhile pySpace
      let ds := r2.takeWhile Char.isDigit
      if 5 ≤ ds.length then some (ds, r2.dropWhile Char.isDigit) else none
    else none
  else none

/-- Fueled scan of `re.finditer(r'Application No\s+(\d{5,})', line)`. -/
def appNoScanF : Nat → List Char → List Line
  | 0, _ => []
  | _ + 1, [] => []
  | fuel + 1, c :: cs =>
    match appNoMatchAt (c :: cs) with
    | some (ds, rest) => ds :: appNoScanF fuel rest
    | none => appNoScanF fuel cs

/-- All matches of the `Application No` pattern in a line. -/
def appNoScan (cs : List Char) : List Line := appNoScanF cs.length cs

/-! ## Section extractors -/

/-- The `"CORRIGENDA"` marker. -/
def corrMarker : List Char := "CORRIGENDA".data

/-- The marker ending the Corrigenda section. -/
def regMarker : List Char := "Following Trade Mark applications have been Registered".data

/-- The marker ending the RC section. -/
def rcEndMarker : List Char := "Following Trade Marks Registration Renewed".data

/-- Model of `extract_advertisement_numbers`, line level: scan every stripped line
until one contains `"CORRIGENDA"`, collecting Advertisement matches. -/
def advLines : List Line → List Line
  | [] => []
  | l :: ls =>
    let s := pyStrip l
    if containsSub s corrMarker then []
    else advScan s ++ advLines ls

/-- Model of `extract_corrigenda_numbers`, line level: lines before the
`"CORRIGENDA"` marker are skipped, the marker line itself is skipped
(`continue`), the registered-announcements marker stops the scan, and
in-section lines are scanned for Corrigenda matches. -/
def corrLines (found : Bool) : List Line → List Line
  | [] => []
  | l :: ls =>
    let s := pyStrip l
    if containsSub s corrMarker then corrLines true ls
    else if containsSub s regMarker then []
    else if found then corrScan s ++ corrLines found ls
    else corrLines found ls

/-- Model of `extract_rc_numbers`, line level: stop at the renewal marker; a line
contributes all of its columns when splitting it on whitespace yields
exactly five columns, each of which satisfies `isdigit`. -/
def rcLines : List Line → List Line
  | [] => []
  | l :: ls =>
    let s := pyStrip l
    if containsSub s rcEndMarker then []
    else
      let cols := pySplit s
      if cols.length = 5 && cols.all pyIsdigit then cols ++ rcLines ls
      else rcLines ls

/-- Model of `extract_numbers(line, pattern, validation)` applied to a list of regex
matches: keep the matches passing validation, deduplicated in
first-occurrence order (`list(dict.fromkeys(...))`). -/
def extractNumsVal (toks : List Line) (d : Nat) : List Line :=
  dedupFirst (toks.filter fun t => decide (d ≤ t.length) && pyIsdigit t)

/-- The tokens one in-section Renewal line contributes: the validated
matches of the bare pattern followed by those of the `Application No`
pattern. -/
def renewLineTokens (s : Line) (d : Nat) : List Line :=
  extractNumsVal (bareScan s) d ++ extractNumsVal (appNoScan s) d

/-- Model of `extract_renewal_numbers`, line level: `found` becomes true on the line
containing the key phrase, and that same line is already scanned. -/
def renewalLines (phrase : List Char) (d : Nat) : Bool → List Line → List Line
  | _, [] => []
  | found, l :: ls =>
    let s := pyStrip l
    let found' := found || containsSub s phrase
    if found' then renewLineTokens s d ++ renewalLines phrase d found' ls
    else renewalLines phrase d found' ls

/-- Model of `extract_advertisement_numbers(text)`. -/
def extract_advertisement_numbers (text : String) : List String :=
  (advLines (splitLines text.data)).map String.mk

/-- Model of `extract_corrigenda_numbers(text)`; the final `list(set(...))` is
modelled as first-occurrence deduplication. -/
def extract_corrigenda_numbers (text : String) : List String :=
  (dedupFirst (corrLines false (splitLines text.data))).map String.mk

/-- Model of `extract_rc_numbers(text)`. -/
def extract_rc_numbers (text : String) : List String :=
  (dedupFirst (rcLines (splitLines text.data))).map String.mk

/-- Model of `extract_renewal_numbers(text, key_phrase, digit_length)`. -/
def extract_renewal_numbers (text : String) (phrase : String) (d : Nat) : List String :=
  (dedupFirst (renewalLines phrase.data d false (splitLines text.data))).map String.mk

/-! ## Orchestrator and exporter -/

/-- The per-category token lists, in the key order of the `PATTERNS` dict. -/
structure CategoryLists where
  advertisement : List String
  corrigenda : List String
  rc : List String
  renewal : List String
deriving DecidableEq, Repr

/-- Model of `process_page`: extract the page text (`None` becomes `""`) and run the
four extractors on it.  A page whose processing raises is modelled at the
orchestrator level as a `none` entry. -/
def process_page (pageText : Option String) (phrase : String) (d : Nat) : CategoryLists :=
  let text := pageText.getD ""
  ⟨extract_advertisement_numbers text,
   extract_corrigenda_numbers text,
   extract_rc_numbers text,
   extract_renewal_numbers text phrase d⟩

/-- The merge loop of `process_pdf`: page results (in worker completion
order) are concatenated category-wise; a `none` entry (a page whose
processing raised) contributes nothing. -/
def mergeResults : List (Option CategoryLists) → CategoryLists
  | [] => ⟨[], [], [], []⟩
  | none :: rest => mergeResults rest
  | some r :: rest =>
    let m := mergeResults rest
    ⟨r.advertisement ++ m.advertisement, r.corrigenda ++ m.corrigenda,
     r.rc ++ m.rc, r.renewal ++ m.renewal⟩

/-- Numeric value of a digit string, as computed by Python `int(...)`. -/
def natOfDigits (l : Line) : Nat := l.foldl (fun n c => 10 * n + (c.toNat - 48)) 0

/-- The comparison underlying `sorted(numeric_strings, key=int)`. -/
def intLe (a b : Line) : Bool := natOfDigits a ≤ natOfDigits b

/-- Lexicographic comparison of strings by code point, as used by Python's
`sorted` on the non-numeric strings. -/
def lexLe : Line → Line → Bool
  | [], _ => true
  | _ :: _, [] => false
  | a :: as, b :: bs => if a < b then true else if b < a then false else lexLe as bs

/-- Stable insertion into a sorted list: the new element goes before the
first element it compares `le` to, hence before later equal elements. -/
def insertLe (le : Line → Line → Bool) (a : Line) : List Line → List Line
  | [] => [a]
  | b :: l => if le a b then a :: b :: l else b :: insertLe le a l

/-- Stable insertion sort, modelling Python's stable `sorted`. -/
def sortIns (le : Line → Line → Bool) (l : List Line) : List Line :=
  l.foldr (insertLe le) []

/-- The "Clean and sort results" step of `process_pdf` for one category:
strip each token, drop empties, then sort the `isdigit` strings by numeric
value followed by the remaining strings sorted lexicographically.  No
deduplication happens here. -/
def finalizeList (numbers : List Line) : List Line :=
  let cleaned := (numbers.map pyStrip).filter fun s => !s.isEmpty
  sortIns intLe (cleaned.filter pyIsdigit) ++
    sortIns lexLe (cleaned.filter fun s => !pyIsdigit s)

/-- The function `finalizeList` at the `String` level. -/
def finalizeStrs (l : List String) : List String :=
  (finalizeList (l.map String.data)).map String.mk

/-- Model of `process_pdf`, given the page results in worker completion order
(`None` for a page whose processing raised): concatenate, then clean and
sort each category. -/
def process_pdf (pageResults : List (Option CategoryLists)) : CategoryLists :=
  let m := mergeResults pageResults
  ⟨finalizeStrs m.advertisement, finalizeStrs m.corrigenda,
   finalizeStrs m.rc, finalizeStrs m.renewal⟩

/-- Model of `process_pdf` on a list of page texts, every page succeeding. -/
def process_pdf_texts (texts : List (Option String)) (phrase : String) (d : Nat) :
    CategoryLists :=
  process_pdf (texts.map fun t => some (process_page t phrase d))

/-- Model of `generate_excel`: one sheet per entry of `data` (in dict order,
unconditionally — also for empty token lists), the sheet name truncated to
31 characters, the sheet holding the category's token list as its single
`Numbers` column. -/
def generate_excel (data : List (String × List String)) : List (String × List String) :=
  data.map fun p => (String.mk (p.1.data.take 31), p.2)

/-- The `data.items()` of a result dict, in the insertion order of the
`PATTERNS` keys. -/
def resultSheets (r : CategoryLists) : List (String × List String) :=
  [("Advertisement", r.advertisement), ("Corrigenda", r.corrigenda),
   ("RC", r.rc), ("Renewal", r.renewal)]

/-- The default renewal key phrase of the settings tab. -/
def defaultPhrase : String :=
  "Following Trade Marks Registration Renewed for a Period Of Ten Years"

/-! ## Unfolding lemmas for the line-level extractors -/

theorem advLines_cons (l : Line) (ls : List Line) :
    advLines (l :: ls) =
      if containsSub (pyStrip l) corrMarker then []
      else advScan (pyStrip l) ++ advLines ls := rfl

theorem corrLines_cons (found : Bool) (l : Line) (ls : List Line) :
    corrLines found (l :: ls) =
      if containsSub (pyStrip l) corrMarker then corrLines true ls
      else if containsSub (pyStrip l) regMarker then []
      else if found then corrScan (pyStrip l) ++ corrLines found ls
      else corrLines found ls := rfl

theorem rcLines_cons (l : Line) (ls : List Line) :
    rcLines (l :: ls) =
      if containsSub (pyStrip l) rcEndMarker then []
      else if (pySplit (pyStrip l)).length = 5 && (pySplit (pyStrip l)).all pyIsdigit
        then pySplit (pyStrip l) ++ rcLines ls
        else rcLines ls := rfl

theorem renewalLines_cons (phrase : List Char) (d : Nat) (found : Bool) (l : Line)
    (ls : List Line) :
    renewalLines phrase d found (l :: ls) =
      if found || containsSub (pyStrip l) phrase then
        renewLineTokens (pyStrip l) d ++
          renewalLines phrase d (found || containsSub (pyStrip l) phrase) ls
      else renewalLines phrase d (found || containsSub (pyStrip l) phrase) ls := rfl

/-! ## Claim C1 -/

/-- C1: on the page `"ADV 12345 01/01/2020\nCORRIGENDA\n67890 -\nFollowing
Trade Mark applications have been Registered..."` the Advertisement
extractor returns exactly `12345` and the Corrigenda extractor exactly
`67890`; moreover Advertisement scanning stops at the `CORRIGENDA` line
(whatever lines follow it contribute nothing), and Corrigenda scanning
skips the marker line itself and stops at the registered-announcements
line (whatever lines follow it contribute nothing). -/
theorem c1_section_boundaries :
    (extract_advertisement_numbers
        "ADV 12345 01/01/2020\nCORRIGENDA\n67890 -\nFollowing Trade Mark applications have been Registered..."
        = ["12345"] ∧
     extract_corrigenda_numbers
        "ADV 12345 01/01/2020\nCORRIGENDA\n67890 -\nFollowing Trade Mark applications have been Registered..."
        = ["67890"]) ∧
    (∀ rest : List Line,
      advLines ("ADV 12345 01/01/2020".data :: "CORRIGENDA".data :: rest) = ["12345".data]) ∧
    (∀ rest : List Line,
      corrLines false
        ("CORRIGENDA".data :: "67890 -".data ::
          "Following Trade Mark applications have been Registered...".data :: rest)
        = ["67890".data]) := by
  refine ⟨⟨by decide, by decide⟩, ?_, ?_⟩
  · intro rest
    rw [advLines_cons, if_neg (by decide), advLines_cons, if_pos (by decide)]
    decide
  · intro rest
    rw [corrLines_cons, if_pos (by decide), corrLines_cons, if_neg (by decide),
      if_neg (by decide), if_pos rfl, corrLines_cons, if_neg (by decide), if_pos (by decide)]
    decide

/-! ## Claim C6 -/

/-- C6: the RC extractor is in-section from the first line; a line
contributes exactly its five whitespace-separated columns when all five
pass `isdigit` (the example line yields all five tokens), while lines with
four columns, a non-numeric column, or six columns contribute nothing; and
a line containing the renewal-section phrase stops the scan regardless of
what follows it. -/
theorem c6_rc_rules :
    extract_rc_numbers "11111 22222 33333 44444 55555"
      = ["11111", "22222", "33333", "44444", "55555"] ∧
    extract_rc_numbers "1 22 333 4444 55555" = ["1", "22", "333", "4444", "55555"] ∧
    extract_rc_numbers "11111 22222 33333 44444" = [] ∧
    extract_rc_numbers "11111 22222 33333 44444 abcde" = [] ∧
    extract_rc_numbers "11111 22222 33333 44444 55555 66666" = [] ∧
    (∀ rest : List Line,
      rcLines ("Following Trade Marks Registration Renewed for a Period Of Ten Years".data :: rest)
        = []) := by
  refine ⟨by decide, by decide, by decide, by decide, by decide, ?_⟩
  intro rest
  rw [rcLines_cons, if_pos (by decide)]

/-! ## Claim C7 -/

/-- C7: after the renewal key phrase has been seen, each line is matched
both for bare 5+-digit bounded tokens and for tokens following
`Application No`, and the union of both is returned: `"Application No
98765"` contributes `98765`; a line `"Application No 98765 12345"` shows
the union (`12345` comes only from the bare pattern); a line
`"Application No 98765a"` shows the second pattern matching where the bare
pattern cannot (no word boundary after the digits). -/
theorem c7_renewal_union :
    extract_renewal_numbers
        "Following Trade Marks Registration Renewed for a Period Of Ten Years\nApplication No 98765"
        defaultPhrase 5 = ["98765"] ∧
    extract_renewal_numbers
        "Following Trade Marks Registration Renewed for a Period Of Ten Years\nApplication No 98765 12345"
        defaultPhrase 5 = ["98765", "12345"] ∧
    extract_renewal_numbers
        "Following Trade Marks Registration Renewed for a Period Of Ten Years\nApplication No 98765a"
        defaultPhrase 5 = ["98765"] := by
  refine ⟨by decide, by decide, by decide⟩

/-! ## Claim C10 -/

/-- C10: the Renewal extractor scans the key-phrase line itself — when a
line contains the key phrase, its own tokens are collected in that same
iteration — whereas the Corrigenda extractor `continue`s over its marker
line, so a number on the `CORRIGENDA` line is never collected. -/
theorem c10_marker_line_scanned :
    (∀ (phrase : List Char) (d : Nat) (l : Line) (ls : List Line) (t : Line),
      containsSub (pyStrip l) phrase = true →
      t ∈ renewLineTokens (pyStrip l) d →
      t ∈ renewalLines phrase d false (l :: ls)) ∧
    (∀ rest : List Line,
      "54321".data ∈ renewalLines "RENEW".data 5 false ("RENEW 54321".data :: rest)) ∧
    extract_renewal_numbers "RENEW 54321" "RENEW" 5 = ["54321"] ∧
    (∀ rest : List Line,
      corrLines false ("CORRIGENDA 54321 -".data :: rest) = corrLines true rest) ∧
    extract_corrigenda_numbers "CORRIGENDA 54321 -" = [] := by
  refine ⟨?_, ?_, by decide, ?_, by decide⟩
  · intro phrase d l ls t hmark ht
    rw [renewalLines_cons, hmark, Bool.or_true, if_pos rfl]
    exact List.mem_append_left _ ht
  · intro rest
    rw [renewalLines_cons, if_pos (by decide)]
    exact List.mem_append_left _ (by decide)
  · intro rest
    rw [corrLines_cons, if_pos (by decide)]

/-- C10 witness: the general marker-line statement applied to the line
`"RENEW 77777"` with phrase `"RENEW"`. -/
theorem c10_witness :
    (containsSub (pyStrip "RENEW 77777".data) "RENEW".data = true ∧
     "77777".data ∈ renewLineTokens (pyStrip "RENEW 77777".data) 5) ∧
    "77777".data ∈ renewalLines "RENEW".data 5 false ["RENEW 77777".data] :=
  ⟨⟨by decide, by decide⟩,
    c10_marker_line_scanned.1 "RENEW".data 5 "RENEW 77777".data [] "77777".data
      (by decide) (by decide)⟩

/-! ## Counterexamples for C2, C3, C4, C8 -/

/-- C2 counterexample: the RC extractor contributes tokens of digit length
below the configured minimum (5): on the page `"1 2 3 4 5"` the final RC
output contains the one-digit token `"1"`. -/
theorem c2_counterexample :
    (process_pdf_texts [some "1 2 3 4 5"] defaultPhrase 5).rc
      = ["1", "2", "3", "4", "5"] ∧
    "1" ∈ (process_pdf_texts [some "1 2 3 4 5"] defaultPhrase 5).rc ∧
    ("1" : String).length < 5 := by
  refine ⟨by decide, by decide, by decide⟩

/-- C3 counterexample: the final Advertisement output of a one-page
document keeps the duplicate — the accumulated list
`["123456", "123456", "654321"]` is returned with three entries, not
reduced to two. -/
theorem c3_counterexample :
    (process_pdf_texts [some "123456 01/01/2020\n123456 01/01/2020\n654321 01/01/2020"]
        defaultPhrase 5).advertisement = ["123456", "123456", "654321"] ∧
    (process_pdf_texts [some "123456 01/01/2020\n123456 01/01/2020\n654321 01/01/2020"]
        defaultPhrase 5).advertisement.length = 3 := by
  refine ⟨by decide, by decide⟩

/-- C4 counterexample: the Corrigenda extractor deduplicates its own
page-local results (two matching lines, one output token), and no global
deduplication happens at the end of the run (the same token from two pages
stays duplicated in the final output). -/
theorem c4_counterexample :
    corrLines false (splitLines "CORRIGENDA\n11111 -\n11111 -".data)
      = ["11111".data, "11111".data] ∧
    extract_corrigenda_numbers "CORRIGENDA\n11111 -\n11111 -" = ["11111"] ∧
    (process_pdf_texts [some "CORRIGENDA\n11111 -", some "CORRIGENDA\n11111 -"]
        defaultPhrase 5).corrigenda = ["11111", "11111"] := by
  refine ⟨by decide, by decide, by decide⟩

/-- C8 counterexample: `generate_excel` produces one sheet per category
unconditionally — a category with an empty token list still produces a
sheet, so a document with no tokens at all yields four sheets, among them
an empty `Advertisement` sheet. -/
theorem c8_counterexample :
    (generate_excel (resultSheets (process_pdf_texts [some ""] defaultPhrase 5))).length = 4 ∧
    ("Advertisement", ([] : List String))
      ∈ generate_excel (resultSheets (process_pdf_texts [some ""] defaultPhrase 5)) := by
  refine ⟨by decide, by decide⟩

/-! ## Claim C5 -/

theorem renewalLines_empty_line (phrase : List Char) (d : Nat) (found : Bool) :
    renewalLines phrase d found [[]] = [] := by
  rw [renewalLines_cons]
  split <;> rfl

/-- C5: a page whose text extraction yields `None` or empty text
contributes zero tokens to every category, and a page whose processing
raises (a `none` page result) is skipped: removing it from the page-result
list leaves `process_pdf`'s output unchanged, so the other pages' tokens
are never lost. -/
theorem c5_page_failures :
    (∀ (phrase : String) (d : Nat),
      process_page none phrase d = ⟨[], [], [], []⟩ ∧
      process_page (some "") phrase d = ⟨[], [], [], []⟩) ∧
    (∀ rs rs' : List (Option CategoryLists),
      process_pdf (rs ++ none :: rs') = process_pdf (rs ++ rs')) := by
  constructor
  · have hren : ∀ (phrase : String) (d : Nat), extract_renewal_numbers "" phrase d = [] := by
      intro phrase d
      unfold extract_renewal_numbers
      rw [show splitLines ("" : String).data = [[]] from rfl, renewalLines_empty_line]
      rfl
    intro phrase d
    constructor
    · show CategoryLists.mk (extract_advertisement_numbers "") (extract_corrigenda_numbers "")
        (extract_rc_numbers "") (extract_renewal_numbers "" phrase d) = _
      rw [hren phrase d]
      decide
    · show CategoryLists.mk (extract_advertisement_numbers "") (extract_corrigenda_numbers "")
        (extract_rc_numbers "") (extract_renewal_numbers "" phrase d) = _
      rw [hren phrase d]
      decide
  · have hm : ∀ rs rs' : List (Option CategoryLists),
        mergeResults (rs ++ none :: rs') = mergeResults (rs ++ rs') := by
      intro rs rs'
      induction rs with
      | nil => rfl
      | cons h t ih => cases h <;> simp [mergeResults, ih]
    intro rs rs'
    unfold process_pdf
    rw [hm]

/-! ## Deduplication helpers -/

theorem dedupFirstAux_nodup {α : Type} [DecidableEq α] (seen : List α) (l : List α) :
    (dedupFirstAux seen l).Nodup ∧ ∀ a ∈ dedupFirstAux seen l, a ∉ seen := by
  induction l generalizing seen with
  | nil => simp [dedupFirstAux]
  | cons a l ih =>
    by_cases h : a ∈ seen
    · rw [dedupFirstAux, if_pos h]
      exact ih seen
    · rw [dedupFirstAux, if_neg h]
      obtain ⟨hn, hs⟩ := ih (a :: seen)
      refine ⟨List.nodup_cons.mpr ⟨fun hmem => hs a hmem (List.mem_cons_self a seen), hn⟩, ?_⟩
      intro b hb
      rcases List.mem_cons.mp hb with rfl | hb'
      · exact h
      · exact fun hbs => hs b hb' (List.mem_cons_of_mem a hbs)

theorem dedupFirst_nodup {α : Type} [DecidableEq α] (l : List α) : (dedupFirst l).Nodup :=
  (dedupFirstAux_nodup [] l).1

theorem mem_of_mem_dedupFirstAux {α : Type} [DecidableEq α] {seen l : List α} {a : α}
    (h : a ∈ dedupFirstAux seen l) : a ∈ l := by
  induction l generalizing seen with
  | nil => simp [dedupFirstAux] at h
  | cons b l ih =>
    by_cases hb : b ∈ seen
    · rw [dedupFirstAux, if_pos hb] at h
      exact List.mem_cons_of_mem b (ih h)
    · rw [dedupFirstAux, if_neg hb] at h
      rcases List.mem_cons.mp h with rfl | h'
      · exact List.mem_cons_self a l
      · exact List.mem_cons_of_mem b (ih h')

theorem mem_of_mem_dedupFirst {α : Type} [DecidableEq α] {l : List α} {a : α}
    (h : a ∈ dedupFirst l) : a ∈ l :=
  mem_of_mem_dedupFirstAux h

theorem string_mk_injective : Function.Injective String.mk :=
  fun _ _ h => congrArg String.data h

/-! ## Sorting and merging helpers -/

theorem insertLe_perm (le : Line → Line → Bool) (a : Line) (l : List Line) :
    (insertLe le a l).Perm (a :: l) := by
  induction l with
  | nil => exact List.Perm.refl _
  | cons b t ih =>
    rw [insertLe]
    split
    · exact List.Perm.refl _
    · exact (ih.cons b).trans (List.Perm.swap a b t)

theorem sortIns_perm (le : Line → Line → Bool) (l : List Line) :
    (sortIns le l).Perm l := by
  induction l with
  | nil => exact List.Perm.refl _
  | cons a t ih =>
    show (insertLe le a (sortIns le t)).Perm (a :: t)
    exact (insertLe_perm le a (sortIns le t)).trans (ih.cons a)

/-- The function `finalizeList` only cleans and sorts: its output is a permutation of
the stripped, nonempty tokens — multiplicities are preserved, so no
deduplication happens in the final step. -/
theorem finalizeList_perm (l : List Line) :
    (finalizeList l).Perm ((l.map pyStrip).filter fun s => !s.isEmpty) := by
  unfold finalizeList
  refine ((sortIns_perm _ _).append (sortIns_perm _ _)).trans ?_
  exact List.filter_append_perm _ _

/-- The merge loop of `process_pdf` is plain concatenation: each category
of the merged result is the flattening of the per-page lists of the
successful pages, in order. -/
theorem mergeResults_flatten (rs : List (Option CategoryLists)) :
    mergeResults rs =
      ⟨((rs.filterMap id).map CategoryLists.advertisement).flatten,
       ((rs.filterMap id).map CategoryLists.corrigenda).flatten,
       ((rs.filterMap id).map CategoryLists.rc).flatten,
       ((rs.filterMap id).map CategoryLists.renewal).flatten⟩ := by
  induction rs with
  | nil => rfl
  | cons h t ih => cases h <;> simp [mergeResults, ih]

/-! ## Claim C3 (amended) -/

/-- C3 amended: a single Corrigenda, RC or Renewal extractor call returns
a duplicate-free list (their page-local `list(set(...))`), but the final
per-category outputs of `process_pdf` are not deduplicated: duplicates of
the Advertisement extractor within a page, and duplicates of any category
across pages, persist in the output. -/
theorem c3_amended :
    (∀ text : String, (extract_corrigenda_numbers text).Nodup) ∧
    (∀ text : String, (extract_rc_numbers text).Nodup) ∧
    (∀ (text phrase : String) (d : Nat), (extract_renewal_numbers text phrase d).Nodup) ∧
    (process_pdf_texts [some "CORRIGENDA\n22222 -", some "CORRIGENDA\n22222 -"]
        defaultPhrase 5).corrigenda = ["22222", "22222"] := by
  refine ⟨?_, ?_, ?_, by decide⟩
  · intro text
    exact (dedupFirst_nodup _).map string_mk_injective
  · intro text
    exact (dedupFirst_nodup _).map string_mk_injective
  · intro text phrase d
    exact (dedupFirst_nodup _).map string_mk_injective

/-! ## Claim C4 (amended) -/

/-- C4 amended: the page orchestrator merges per-page token lists into the
running results by plain concatenation with no deduplication at merge
time, and the final step only cleans and sorts (its output is a
permutation of the cleaned merged list, so no global deduplication
exists); however the Corrigenda, RC and Renewal extractors do deduplicate
their own page-local results, while the Advertisement extractor does
not. -/
theorem c4_amended :
    (∀ rs : List (Option CategoryLists),
      mergeResults rs =
        ⟨((rs.filterMap id).map CategoryLists.advertisement).flatten,
         ((rs.filterMap id).map CategoryLists.corrigenda).flatten,
         ((rs.filterMap id).map CategoryLists.rc).flatten,
         ((rs.filterMap id).map CategoryLists.renewal).flatten⟩) ∧
    (∀ l : List Line, (finalizeList l).Perm ((l.map pyStrip).filter fun s => !s.isEmpty)) ∧
    (∀ text : String, (extract_corrigenda_numbers text).Nodup ∧ (extract_rc_numbers text).Nodup) ∧
    (∀ (text phrase : String) (d : Nat), (extract_renewal_numbers text phrase d).Nodup) ∧
    extract_advertisement_numbers "33333 01/01/2020\n33333 02/02/2020" = ["33333", "33333"] := by
  refine ⟨mergeResults_flatten, finalizeList_perm, ?_, ?_, by decide⟩
  · intro text
    exact ⟨(dedupFirst_nodup _).map string_mk_injective,
      (dedupFirst_nodup _).map string_mk_injective⟩
  · intro text phrase d
    exact (dedupFirst_nodup _).map string_mk_injective

/-! ## Claim C9 -/

theorem perm_flatten {α : Type} {l₁ l₂ : List (List α)} (h : l₁.Perm l₂) :
    l₁.flatten.Perm l₂.flatten := by
  induction h with
  | nil => exact List.Perm.refl _
  | cons x _ ih =>
    rw [List.flatten_cons, List.flatten_cons]
    exact ih.append_left x
  | swap x y t =>
    rw [List.flatten_cons, List.flatten_cons, List.flatten_cons, List.flatten_cons,
      ← List.append_assoc, ← List.append_assoc]
    exact List.perm_append_comm.append_right _
  | trans _ _ ih1 ih2 => exact ih1.trans ih2

theorem finalizeList_perm_congr {l l' : List Line} (h : l.Perm l') :
    (finalizeList l).Perm (finalizeList l') :=
  (finalizeList_perm l).trans (((h.map pyStrip).filter _).trans (finalizeList_perm l').symm)

theorem finalizeStrs_perm_congr {l l' : List String} (h : l.Perm l') :
    (finalizeStrs l).Perm (finalizeStrs l') :=
  (finalizeList_perm_congr (h.map String.data)).map String.mk

theorem perm_toFinset {l l' : List String} (h : l.Perm l') : l.toFinset = l'.toFinset := by
  ext a
  simp [List.mem_toFinset, h.mem_iff]

theorem mergeResults_advertisement (rs : List (Option CategoryLists)) :
    (mergeResults rs).advertisement =
      ((rs.filterMap id).map CategoryLists.advertisement).flatten := by
  rw [mergeResults_flatten]

theorem mergeResults_corrigenda (rs : List (Option CategoryLists)) :
    (mergeResults rs).corrigenda =
      ((rs.filterMap id).map CategoryLists.corrigenda).flatten := by
  rw [mergeResults_flatten]

theorem mergeResults_rc (rs : List (Option CategoryLists)) :
    (mergeResults rs).rc = ((rs.filterMap id).map CategoryLists.rc).flatten := by
  rw [mergeResults_flatten]

theorem mergeResults_renewal (rs : List (Option CategoryLists)) :
    (mergeResults rs).renewal = ((rs.filterMap id).map CategoryLists.renewal).flatten := by
  rw [mergeResults_flatten]

/-- C9: the deduplicated set of tokens per category is independent of the
order in which the page workers complete: permuting the page results
leaves each category's final token set unchanged, so two runs of the
pipeline on the same document agree. -/
theorem c9_perm_invariant (rs rs' : List (Option CategoryLists)) (h : rs.Perm rs') :
    (process_pdf rs).advertisement.toFinset = (process_pdf rs').advertisement.toFinset ∧
    (process_pdf rs).corrigenda.toFinset = (process_pdf rs').corrigenda.toFinset ∧
    (process_pdf rs).rc.toFinset = (process_pdf rs').rc.toFinset ∧
    (process_pdf rs).renewal.toFinset = (process_pdf rs').renewal.toFinset := by
  have hfm : ∀ f : CategoryLists → List String,
      (((rs.filterMap id).map f).flatten).Perm (((rs'.filterMap id).map f).flatten) :=
    fun f => perm_flatten ((h.filterMap id).map f)
  refine ⟨?_, ?_, ?_, ?_⟩
  · exact perm_toFinset (finalizeStrs_perm_congr
      (by rw [mergeResults_advertisement, mergeResults_advertisement]; exact hfm _))
  · exact perm_toFinset (finalizeStrs_perm_congr
      (by rw [mergeResults_corrigenda, mergeResults_corrigenda]; exact hfm _))
  · exact perm_toFinset (finalizeStrs_perm_congr
      (by rw [mergeResults_rc, mergeResults_rc]; exact hfm _))
  · exact perm_toFinset (finalizeStrs_perm_congr
      (by rw [mergeResults_renewal, mergeResults_renewal]; exact hfm _))

/-- C9 witness: two pages completing in either order give the same final
Advertisement token set. -/
theorem c9_witness :
    ([some (⟨["11111"], [], [], []⟩ : CategoryLists), some ⟨["22222"], [], [], []⟩].Perm
      [some ⟨["22222"], [], [], []⟩, some ⟨["11111"], [], [], []⟩]) ∧
    (process_pdf [some (⟨["11111"], [], [], []⟩ : CategoryLists),
        some ⟨["22222"], [], [], []⟩]).advertisement.toFinset =
      (process_pdf [some (⟨["22222"], [], [], []⟩ : CategoryLists),
        some ⟨["11111"], [], [], []⟩]).advertisement.toFinset :=
  ⟨by decide, (c9_perm_invariant _ _ (by decide)).1⟩

/-! ## Token-shape lemmas: every scanner token is a digit run of length at
least 5 (RC columns: at least 1) -/

theorem allTakeWhile (p : Char → Bool) (l : List Char) : (l.takeWhile p).all p = true := by
  induction l with
  | nil => rfl
  | cons a t ih =>
    rw [List.takeWhile_cons]
    split
    case isTrue h => simp [List.all_cons, h, ih]
    case isFalse h => rfl

theorem advMatchAt_shape {cs : List Char} {ds rest : Line}
    (h : advMatchAt cs = some (ds, rest)) :
    ds.all Char.isDigit = true ∧ 5 ≤ ds.length := by
  by_cases h5 : 5 ≤ (cs.takeWhile Char.isDigit).length
  · by_cases hsp : 1 ≤ ((cs.dropWhile Char.isDigit).takeWhile pySpace).length
    · rcases hmd : matchDate ((cs.dropWhile Char.isDigit).dropWhile pySpace) with _ | r
      · simp [advMatchAt, h5, hsp, hmd] at h
      · simp [advMatchAt, h5, hsp, hmd, Prod.ext_iff] at h
        obtain ⟨h1, -⟩ := h
        rw [← h1]
        exact ⟨allTakeWhile _ _, h5⟩
    · simp [advMatchAt, h5, hsp] at h
  · simp [advMatchAt, h5] at h

theorem corrMatchAt_shape {cs : List Char} {ds rest : Line}
    (h : corrMatchAt cs = some (ds, rest)) :
    ds.all Char.isDigit = true ∧ 5 ≤ ds.length := by
  by_cases h5 : 5 ≤ (cs.takeWhile Char.isDigit).length
  · rcases hdw : (cs.dropWhile Char.isDigit).dropWhile pySpace with _ | ⟨d, rest'⟩
    · simp [corrMatchAt, h5, hdw] at h
    · by_cases hd : corrDash d = true
      · simp [corrMatchAt, h5, hdw, hd, Prod.ext_iff] at h
        obtain ⟨h1, -⟩ := h
        rw [← h1]
        exact ⟨allTakeWhile _ _, h5⟩
      · simp [corrMatchAt, h5, hdw, hd] at h
  · simp [corrMatchAt, h5] at h

theorem appNoMatchAt_shape {cs : List Char} {ds rest : Line}
    (h : appNoMatchAt cs = some (ds, rest)) :
    ds.all Char.isDigit = true ∧ 5 ≤ ds.length := by
  by_cases hst : startsWith cs appNoLit = true
  · by_cases hsp : 1 ≤ ((cs.drop appNoLit.length).takeWhile pySpace).length
    · by_cases h5 : 5 ≤ (((cs.drop appNoLit.length).dropWhile pySpace).takeWhile Char.isDigit).length
      · simp [appNoMatchAt, hst, hsp, h5, Prod.ext_iff] at h
        obtain ⟨h1, -⟩ := h
        rw [← h1]
        exact ⟨allTakeWhile _ _, h5⟩
      · simp [appNoMatchAt, hst, hsp, h5] at h
    · simp [appNoMatchAt, hst, hsp] at h
  · simp [appNoMatchAt, hst] at h

theorem mem_advScanF (fuel : Nat) :
    ∀ (cs : List Char) (t : Line), t ∈ advScanF fuel cs →
      t.all Char.isDigit = true ∧ 5 ≤ t.length := by
  induction fuel with
  | zero => intro cs t h; simp [advScanF] at h
  | succ n ih =>
    intro cs t h
    cases cs with
    | nil => simp [advScanF] at h
    | cons c cs' =>
      rcases hm : advMatchAt (c :: cs') with _ | ⟨ds, rest⟩
      · rw [advScanF, hm] at h
        exact ih cs' t h
      · rw [advScanF, hm] at h
        rcases List.mem_cons.mp h with rfl | h'
        · exact advMatchAt_shape hm
        · exact ih rest t h'

theorem mem_corrScanF (fuel : Nat) :
    ∀ (cs : List Char) (t : Line), t ∈ corrScanF fuel cs →
      t.all Char.isDigit = true ∧ 5 ≤ t.length := by
  induction fuel with
  | zero => intro cs t h; simp [corrScanF] at h
  | succ n ih =>
    intro cs t h
    cases cs with
    | nil => simp [corrScanF] at h
    | cons c cs' =>
      rcases hm : corrMatchAt (c :: cs') with _ | ⟨ds, rest⟩
      · rw [corrScanF, hm] at h
        exact ih cs' t h
      · rw [corrScanF, hm] at h
        rcases List.mem_cons.mp h with rfl | h'
        · exact corrMatchAt_shape hm
        · exact ih rest t h'

theorem mem_appNoScanF (fuel : Nat) :
    ∀ (cs : List Char) (t : Line), t ∈ appNoScanF fuel cs →
      t.all Char.isDigit = true ∧ 5 ≤ t.length := by
  induction fuel with
  | zero => intro cs t h; simp [appNoScanF] at h
  | succ n ih =>
    intro cs t h
    cases cs with
    | nil => simp [appNoScanF] at h
    | cons c cs' =>
      rcases hm : appNoMatchAt (c :: cs') with _ | ⟨ds, rest⟩
      · rw [appNoScanF, hm] at h
        exact ih cs' t h
      · rw [appNoScanF, hm] at h
        rcases List.mem_cons.mp h with rfl | h'
        · exact appNoMatchAt_shape hm
        · exact ih rest t h'

theorem mem_bareScanF (fuel : Nat) :
    ∀ (prev : Bool) (cs : List Char) (t : Line), t ∈ bareScanF fuel prev cs →
      t.all Char.isDigit = true ∧ 5 ≤ t.length := by
  induction fuel with
  | zero => intro prev cs t h; simp [bareScanF] at h
  | succ n ih =>
    intro prev cs t h
    cases cs with
    | nil => simp [bareScanF] at h
    | cons c cs' =>
      by_cases h1 : (!prev && c.isDigit) = true
      · by_cases h2 : (decide (5 ≤ ((c :: cs').takeWhile Char.isDigit).length)
            && !headWord ((c :: cs').dropWhile Char.isDigit)) = true
        · rw [bareScanF, if_pos h1] at h
          rw [if_pos h2] at h
          rcases List.mem_cons.mp h with rfl | h'
          · rw [Bool.and_eq_true, decide_eq_true_eq] at h2
            exact ⟨allTakeWhile _ _, h2.1⟩
          · exact ih true _ t h'
        · rw [bareScanF, if_pos h1, if_neg h2] at h
          exact ih true _ t h
      · rw [bareScanF, if_neg h1] at h
        exact ih (isWordChar c) cs' t h

theorem pyIsdigit_shape {t : Line} (h : pyIsdigit t = true) :
    t.all Char.isDigit = true ∧ 1 ≤ t.length := by
  unfold pyIsdigit at h
  rw [Bool.and_eq_true] at h
  obtain ⟨h1, h2⟩ := h
  refine ⟨h2, ?_⟩
  cases t with
  | nil => simp at h1
  | cons a t' => simp

theorem mem_advLines {ls : List Line} {t : Line} (h : t ∈ advLines ls) :
    t.all Char.isDigit = true ∧ 5 ≤ t.length := by
  induction ls with
  | nil => simp [advLines] at h
  | cons l ls ih =>
    rw [advLines_cons] at h
    split at h
    · simp at h
    · rcases List.mem_append.mp h with h' | h'
      · exact mem_advScanF _ _ _ h'
      · exact ih h'

theorem mem_corrLines {ls : List Line} {found : Bool} {t : Line}
    (h : t ∈ corrLines found ls) :
    t.all Char.isDigit = true ∧ 5 ≤ t.length := by
  induction ls generalizing found with
  | nil => simp [corrLines] at h
  | cons l ls ih =>
    rw [corrLines_cons] at h
    split at h
    · exact ih h
    · split at h
      · simp at h
      · split at h
        · rcases List.mem_append.mp h with h' | h'
          · exact mem_corrScanF _ _ _ h'
          · exact ih h'
        · exact ih h

theorem mem_rcLines {ls : List Line} {t : Line} (h : t ∈ rcLines ls) :
    t.all Char.isDigit = true ∧ 1 ≤ t.length := by
  induction ls with
  | nil => simp [rcLines] at h
  | cons l ls ih =>
    rw [rcLines_cons] at h
    split at h
    · simp at h
    · split at h
      case isTrue hc =>
        rcases List.mem_append.mp h with h' | h'
        · rw [Bool.and_eq_true] at hc
          exact pyIsdigit_shape (List.all_eq_true.mp hc.2 t h')
        · exact ih h'
      case isFalse => exact ih h

theorem mem_extractNumsVal {toks : List Line} {d : Nat} {t : Line}
    (h : t ∈ extractNumsVal toks d) : t ∈ toks := by
  unfold extractNumsVal at h
  exact List.mem_of_mem_filter (mem_of_mem_dedupFirst h)

theorem mem_renewLineTokens {s : Line} {d : Nat} {t : Line} (h : t ∈ renewLineTokens s d) :
    t.all Char.isDigit = true ∧ 5 ≤ t.length := by
  unfold renewLineTokens at h
  rcases List.mem_append.mp h with h' | h'
  · exact mem_bareScanF _ _ _ _ (mem_extractNumsVal h')
  · exact mem_appNoScanF _ _ _ (mem_extractNumsVal h')

theorem mem_renewalLines {phrase : List Char} {d : Nat} {ls : List Line} {found : Bool}
    {t : Line} (h : t ∈ renewalLines phrase d found ls) :
    t.all Char.isDigit = true ∧ 5 ≤ t.length := by
  induction ls generalizing found with
  | nil => simp [renewalLines] at h
  | cons l ls ih =>
    rw [renewalLines_cons] at h
    split at h
    · rcases List.mem_append.mp h with h' | h'
      · exact mem_renewLineTokens h'
      · exact ih h'
    · exact ih h

/-! ## Stripping digit tokens is the identity -/

theorem pySpace_eq_false {c : Char} (h : c.isDigit = true) : pySpace c = false := by
  cases hs : pySpace c
  · rfl
  · exfalso
    unfold pySpace at hs
    simp only [Bool.or_eq_true, decide_eq_true_eq] at hs
    have hs' : c = ' ' ∨ c = '\t' ∨ c = '\n' ∨ c = '\r' ∨ c = '\x0b' ∨ c = '\x0c' := by
      tauto
    rcases hs' with rfl | rfl | rfl | rfl | rfl | rfl <;> exact absurd h (by decide)

theorem dropWhile_pySpace_eq_self {l : Line} (hl : ∀ c ∈ l, pySpace c = false) :
    l.dropWhile pySpace = l := by
  cases l with
  | nil => rfl
  | cons a t =>
    rw [List.dropWhile_cons, hl a (List.mem_cons_self a t)]
    simp

theorem pyStrip_digits {l : Line} (h : l.all Char.isDigit = true) : pyStrip l = l := by
  have h1 : ∀ c ∈ l, pySpace c = false :=
    fun c hc => pySpace_eq_false (List.all_eq_true.mp h c hc)
  unfold pyStrip
  rw [dropWhile_pySpace_eq_self h1,
    dropWhile_pySpace_eq_self (fun c hc => h1 c (List.mem_reverse.mp hc)),
    List.reverse_reverse]

/-! ## Membership through the final cleaning step -/

theorem mem_finalizeList {l : List Line} {t : Line} (h : t ∈ finalizeList l) :
    ∃ t₀ ∈ l, t = pyStrip t₀ := by
  unfold finalizeList at h
  have hclean : t ∈ (l.map pyStrip).filter fun s => !s.isEmpty := by
    rcases List.mem_append.mp h with h' | h'
    · exact List.mem_of_mem_filter ((sortIns_perm intLe _).mem_iff.mp h')
    · exact List.mem_of_mem_filter ((sortIns_perm lexLe _).mem_iff.mp h')
  obtain ⟨t₀, ht₀, rfl⟩ := List.mem_map.mp (List.mem_of_mem_filter hclean)
  exact ⟨t₀, ht₀, rfl⟩

theorem mem_finalizeStrs {l : List String} {t : String} (h : t ∈ finalizeStrs l) :
    ∃ t₀ ∈ l, t.data = pyStrip t₀.data := by
  unfold finalizeStrs at h
  obtain ⟨tc, htc, rfl⟩ := List.mem_map.mp h
  obtain ⟨t₀c, ht₀c, rfl⟩ := mem_finalizeList htc
  obtain ⟨t₀, ht₀, rfl⟩ := List.mem_map.mp ht₀c
  exact ⟨t₀, ht₀, rfl⟩

/-! ## String-level token shapes per extractor -/

theorem extract_adv_shape {text : String} {t : String}
    (h : t ∈ extract_advertisement_numbers text) :
    t.data.all Char.isDigit = true ∧ 5 ≤ t.data.length := by
  obtain ⟨tc, htc, rfl⟩ := List.mem_map.mp h
  exact mem_advLines htc

theorem extract_corr_shape {text : String} {t : String}
    (h : t ∈ extract_corrigenda_numbers text) :
    t.data.all Char.isDigit = true ∧ 5 ≤ t.data.length := by
  obtain ⟨tc, htc, rfl⟩ := List.mem_map.mp h
  exact mem_corrLines (mem_of_mem_dedupFirst htc)

theorem extract_rc_shape {text : String} {t : String}
    (h : t ∈ extract_rc_numbers text) :
    t.data.all Char.isDigit = true ∧ 1 ≤ t.data.length := by
  obtain ⟨tc, htc, rfl⟩ := List.mem_map.mp h
  exact mem_rcLines (mem_of_mem_dedupFirst htc)

theorem extract_renewal_shape {text phrase : String} {d : Nat} {t : String}
    (h : t ∈ extract_renewal_numbers text phrase d) :
    t.data.all Char.isDigit = true ∧ 5 ≤ t.data.length := by
  obtain ⟨tc, htc, rfl⟩ := List.mem_map.mp h
  exact mem_renewalLines (mem_of_mem_dedupFirst htc)

/-! ## From the merged document back to a page -/

theorem mem_merged_texts {texts : List (Option String)} {phrase : String} {d : Nat}
    {f : CategoryLists → List String} {t : String}
    (h : t ∈ (((texts.map fun tx => some (process_page tx phrase d)).filterMap id).map f).flatten) :
    ∃ tx : Option String, t ∈ f (process_page tx phrase d) := by
  obtain ⟨L, hL, htL⟩ := List.mem_flatten.mp h
  obtain ⟨r, hr, rfl⟩ := List.mem_map.mp hL
  obtain ⟨o, ho, hor⟩ := List.mem_filterMap.mp hr
  obtain ⟨tx, htx, heq⟩ := List.mem_map.mp ho
  subst heq
  simp only [id] at hor
  injection hor with hor'
  subst hor'
  exact ⟨tx, htL⟩

theorem merged_tokens_shape (texts : List (Option String)) (phrase : String) (d : Nat) :
    (∀ x ∈ (mergeResults (texts.map fun tx => some (process_page tx phrase d))).advertisement,
      x.data.all Char.isDigit = true ∧ 5 ≤ x.data.length) ∧
    (∀ x ∈ (mergeResults (texts.map fun tx => some (process_page tx phrase d))).corrigenda,
      x.data.all Char.isDigit = true ∧ 5 ≤ x.data.length) ∧
    (∀ x ∈ (mergeResults (texts.map fun tx => some (process_page tx phrase d))).rc,
      x.data.all Char.isDigit = true ∧ 1 ≤ x.data.length) ∧
    (∀ x ∈ (mergeResults (texts.map fun tx => some (process_page tx phrase d))).renewal,
      x.data.all Char.isDigit = true ∧ 5 ≤ x.data.length) := by
  refine ⟨?_, ?_, ?_, ?_⟩
  · intro x hx
    rw [mergeResults_advertisement] at hx
    obtain ⟨tx, htx⟩ := mem_merged_texts hx
    exact extract_adv_shape htx
  · intro x hx
    rw [mergeResults_corrigenda] at hx
    obtain ⟨tx, htx⟩ := mem_merged_texts hx
    exact extract_corr_shape htx
  · intro x hx
    rw [mergeResults_rc] at hx
    obtain ⟨tx, htx⟩ := mem_merged_texts hx
    exact extract_rc_shape htx
  · intro x hx
    rw [mergeResults_renewal] at hx
    obtain ⟨tx, htx⟩ := mem_merged_texts hx
    exact extract_renewal_shape htx

/-! ## Claim C2 (amended) -/

/-- C2 amended: every string in every category's final output consists only
of digits, and the Advertisement, Corrigenda and Renewal tokens have at
least the minimum digit length 5 — but RC tokens are only guaranteed to be
nonempty digit strings: the RC extractor imposes no length bound on its
columns. -/
theorem c2_amended (texts : List (Option String)) (phrase : String) (d : Nat) (t : String) :
    (t ∈ (process_pdf_texts texts phrase d).advertisement →
      t.data.all Char.isDigit = true ∧ 5 ≤ t.length) ∧
    (t ∈ (process_pdf_texts texts phrase d).corrigenda →
      t.data.all Char.isDigit = true ∧ 5 ≤ t.length) ∧
    (t ∈ (process_pdf_texts texts phrase d).rc →
      t.data.all Char.isDigit = true ∧ 1 ≤ t.length) ∧
    (t ∈ (process_pdf_texts texts phrase d).renewal →
      t.data.all Char.isDigit = true ∧ 5 ≤ t.length) := by
  obtain ⟨hA, hC, hR, hN⟩ := merged_tokens_shape texts phrase d
  refine ⟨?_, ?_, ?_, ?_⟩
  · intro h
    obtain ⟨t₀, ht₀, hdata⟩ := mem_finalizeStrs h
    obtain ⟨hd, hlen⟩ := hA t₀ ht₀
    show t.data.all Char.isDigit = true ∧ 5 ≤ t.data.length
    rw [hdata, pyStrip_digits hd]
    exact ⟨hd, hlen⟩
  · intro h
    obtain ⟨t₀, ht₀, hdata⟩ := mem_finalizeStrs h
    obtain ⟨hd, hlen⟩ := hC t₀ ht₀
    show t.data.all Char.isDigit = true ∧ 5 ≤ t.data.length
    rw [hdata, pyStrip_digits hd]
    exact ⟨hd, hlen⟩
  · intro h
    obtain ⟨t₀, ht₀, hdata⟩ := mem_finalizeStrs h
    obtain ⟨hd, hlen⟩ := hR t₀ ht₀
    show t.data.all Char.isDigit = true ∧ 1 ≤ t.data.length
    rw [hdata, pyStrip_digits hd]
    exact ⟨hd, hlen⟩
  · intro h
    obtain ⟨t₀, ht₀, hdata⟩ := mem_finalizeStrs h
    obtain ⟨hd, hlen⟩ := hN t₀ ht₀
    show t.data.all Char.isDigit = true ∧ 5 ≤ t.data.length
    rw [hdata, pyStrip_digits hd]
    exact ⟨hd, hlen⟩

/-- C2 witness: the amended bounds applied to a concrete document whose
four categories each produce a token. -/
theorem c2_amended_witness :
    ("12345" ∈ (process_pdf_texts
        [some "12345 01/01/2020\nCORRIGENDA\n23456 -\nFollowing Trade Mark applications have been Registered\n1 2 3 4 5",
         some "Following Trade Marks Registration Renewed for a Period Of Ten Years\nApplication No 98765"]
        defaultPhrase 5).advertisement ∧
      "12345".data.all Char.isDigit = true ∧ 5 ≤ ("12345" : String).length) ∧
    ("23456" ∈ (process_pdf_texts
        [some "12345 01/01/2020\nCORRIGENDA\n23456 -\nFollowing Trade Mark applications have been Registered\n1 2 3 4 5",
         some "Following Trade Marks Registration Renewed for a Period Of Ten Years\nApplication No 98765"]
        defaultPhrase 5).corrigenda ∧
      "23456".data.all Char.isDigit = true ∧ 5 ≤ ("23456" : String).length) ∧
    ("1" ∈ (process_pdf_texts
        [some "12345 01/01/2020\nCORRIGENDA\n23456 -\nFollowing Trade Mark applications have been Registered\n1 2 3 4 5",
         some "Following Trade Marks Registration Renewed for a Period Of Ten Years\nApplication No 98765"]
        defaultPhrase 5).rc ∧
      "1".data.all Char.isDigit = true ∧ 1 ≤ ("1" : String).length) ∧
    ("98765" ∈ (process_pdf_texts
        [some "12345 01/01/2020\nCORRIGENDA\n23456 -\nFollowing Trade Mark applications have been Registered\n1 2 3 4 5",
         some "Following Trade Marks Registration Renewed for a Period Of Ten Years\nApplication No 98765"]
        defaultPhrase 5).renewal ∧
      "98765".data.all Char.isDigit = true ∧ 5 ≤ ("98765" : String).length) := by
  have h := c2_amended
    [some "12345 01/01/2020\nCORRIGENDA\n23456 -\nFollowing Trade Mark applications have been Registered\n1 2 3 4 5",
     some "Following Trade Marks Registration Renewed for a Period Of Ten Years\nApplication No 98765"]
    defaultPhrase 5
  exact ⟨⟨by decide, (h "12345").1 (by decide)⟩,
    ⟨by decide, (h "23456").2.1 (by decide)⟩,
    ⟨by decide, (h "1").2.2.1 (by decide)⟩,
    ⟨by decide, (h "98765").2.2.2 (by decide)⟩⟩

/-! ## Sortedness of the final lists -/

theorem intLe_total (a b : Line) : intLe a b = true ∨ intLe b a = true := by
  rcases Nat.le_total (natOfDigits a) (natOfDigits b) with h | h
  · left
    simp [intLe, h]
  · right
    simp [intLe, h]

theorem intLe_trans {a b c : Line} (h1 : intLe a b = true) (h2 : intLe b c = true) :
    intLe a c = true := by
  simp only [intLe, decide_eq_true_eq] at *
  exact le_trans h1 h2

theorem mem_insertLe {le : Line → Line → Bool} {a x : Line} {l : List Line} :
    x ∈ insertLe le a l ↔ x = a ∨ x ∈ l :=
  (insertLe_perm le a l).mem_iff.trans List.mem_cons

theorem pairwise_insertLe {le : Line → Line → Bool}
    (htot : ∀ a b, le a b = true ∨ le b a = true)
    (htr : ∀ {a b c : Line}, le a b = true → le b c = true → le a c = true)
    (a : Line) {l : List Line} (h : l.Pairwise fun x y => le x y = true) :
    (insertLe le a l).Pairwise fun x y => le x y = true := by
  induction l with
  | nil => simp [insertLe]
  | cons b t ih =>
    obtain ⟨hb, ht⟩ := List.pairwise_cons.mp h
    rw [insertLe]
    split
    case isTrue hab =>
      refine List.pairwise_cons.mpr ⟨?_, h⟩
      intro x hx
      rcases List.mem_cons.mp hx with rfl | hx'
      · exact hab
      · exact htr hab (hb x hx')
    case isFalse hab =>
      refine List.pairwise_cons.mpr ⟨?_, ih ht⟩
      intro x hx
      rcases mem_insertLe.mp hx with rfl | hx'
      · rcases htot x b with h' | h'
        · exact absurd h' hab
        · exact h'
      · exact hb x hx'

theorem pairwise_sortIns {le : Line → Line → Bool}
    (htot : ∀ a b, le a b = true ∨ le b a = true)
    (htr : ∀ {a b c : Line}, le a b = true → le b c = true → le a c = true)
    (l : List Line) : (sortIns le l).Pairwise fun x y => le x y = true := by
  induction l with
  | nil => simp [sortIns]
  | cons a t ih => exact pairwise_insertLe htot htr a ih

theorem finalizeList_pairwise {l : List Line}
    (hl : ∀ x ∈ l, x.all Char.isDigit = true ∧ 1 ≤ x.length) :
    (finalizeList l).Pairwise fun a b => intLe a b = true := by
  have hclean : ∀ x ∈ ((l.map pyStrip).filter fun s => !s.isEmpty), pyIsdigit x = true := by
    intro x hx
    obtain ⟨x₀, hx₀, rfl⟩ := List.mem_map.mp (List.mem_of_mem_filter hx)
    obtain ⟨hd, hlen⟩ := hl x₀ hx₀
    rw [pyStrip_digits hd]
    unfold pyIsdigit
    rw [Bool.and_eq_true]
    refine ⟨?_, hd⟩
    cases x₀ with
    | nil => simp at hlen
    | cons a t => simp
  simp only [finalizeList]
  rw [List.filter_eq_self.mpr hclean,
    show (((l.map pyStrip).filter fun s => !s.isEmpty).filter fun s => !pyIsdigit s) = []
      from List.filter_eq_nil_iff.mpr (fun a ha => by simp [hclean a ha]),
    show sortIns lexLe [] = [] from rfl, List.append_nil]
  exact pairwise_sortIns intLe_total intLe_trans _

theorem finalizeStrs_pairwise {l : List String}
    (hl : ∀ x ∈ l, x.data.all Char.isDigit = true ∧ 1 ≤ x.data.length) :
    (finalizeStrs l).Pairwise fun a b => natOfDigits a.data ≤ natOfDigits b.data := by
  unfold finalizeStrs
  rw [List.pairwise_map]
  have hp : (finalizeList (l.map String.data)).Pairwise fun a b => intLe a b = true := by
    refine finalizeList_pairwise ?_
    intro x hx
    obtain ⟨x₀, hx₀, rfl⟩ := List.mem_map.mp hx
    exact hl x₀ hx₀
  exact hp.imp fun h => by simpa [intLe, decide_eq_true_eq] using h

/-! ## Claim C8 (amended) -/

/-- C8 amended: the exporter produces exactly one worksheet per category —
including categories with empty token lists — in the fixed order of the
four categories; each sheet name is at most 31 characters (truncated), and
each sheet's single column holds the category's tokens as digit strings
sorted ascending by numeric value (not deduplicated). -/
theorem c8_amended (texts : List (Option String)) (phrase : String) (d : Nat) :
    ((generate_excel (resultSheets (process_pdf_texts texts phrase d))).map Prod.fst =
      ["Advertisement", "Corrigenda", "RC", "Renewal"]) ∧
    (∀ (name : String) (toks : List String),
      (name, toks) ∈ generate_excel (resultSheets (process_pdf_texts texts phrase d)) →
      name.length ≤ 31 ∧
      toks.Pairwise fun a b => natOfDigits a.data ≤ natOfDigits b.data) := by
  obtain ⟨hA, hC, hR, hN⟩ := merged_tokens_shape texts phrase d
  have hsheets : generate_excel (resultSheets (process_pdf_texts texts phrase d)) =
      [(String.mk ("Advertisement".data.take 31), (process_pdf_texts texts phrase d).advertisement),
       (String.mk ("Corrigenda".data.take 31), (process_pdf_texts texts phrase d).corrigenda),
       (String.mk ("RC".data.take 31), (process_pdf_texts texts phrase d).rc),
       (String.mk ("Renewal".data.take 31), (process_pdf_texts texts phrase d).renewal)] := rfl
  constructor
  · rw [hsheets]
    simp only [List.map_cons, List.map_nil]
    decide
  · intro name toks hmem
    rw [hsheets] at hmem
    have hw : ∀ x ∈ (mergeResults (texts.map fun tx => some (process_page tx phrase d))).advertisement,
        x.data.all Char.isDigit = true ∧ 1 ≤ x.data.length :=
      fun x hx => ⟨(hA x hx).1, le_trans (by omega) (hA x hx).2⟩
    have hw2 : ∀ x ∈ (mergeResults (texts.map fun tx => some (process_page tx phrase d))).corrigenda,
        x.data.all Char.isDigit = true ∧ 1 ≤ x.data.length :=
      fun x hx => ⟨(hC x hx).1, le_trans (by omega) (hC x hx).2⟩
    have hw4 : ∀ x ∈ (mergeResults (texts.map fun tx => some (process_page tx phrase d))).renewal,
        x.data.all Char.isDigit = true ∧ 1 ≤ x.data.length :=
      fun x hx => ⟨(hN x hx).1, le_trans (by omega) (hN x hx).2⟩
    simp only [List.mem_cons, List.not_mem_nil, or_false, Prod.mk.injEq] at hmem
    rcases hmem with ⟨rfl, rfl⟩ | ⟨rfl, rfl⟩ | ⟨rfl, rfl⟩ | ⟨rfl, rfl⟩
    · exact ⟨by decide, finalizeStrs_pairwise hw⟩
    · exact ⟨by decide, finalizeStrs_pairwise hw2⟩
    · exact ⟨by decide, finalizeStrs_pairwise hR⟩
    · exact ⟨by decide, finalizeStrs_pairwise hw4⟩

/-- C8 witness: the amended exporter facts applied to a concrete one-page
document, producing a sheet whose tokens are sorted. -/
theorem c8_amended_witness :
    (("Advertisement", ["12345", "23456"]) ∈ generate_excel (resultSheets
      (process_pdf_texts [some "23456 01/01/2020\n12345 02/02/2020"] defaultPhrase 5))) ∧
    (("Advertisement" : String).length ≤ 31 ∧
      (["12345", "23456"] : List String).Pairwise
        fun a b => natOfDigits a.data ≤ natOfDigits b.data) :=
  ⟨by decide,
    (c8_amended [some "23456 01/01/2020\n12345 02/02/2020"] defaultPhrase 5).2
      "Advertisement" ["12345", "23456"] (by decide)⟩

end TMJ
